import Mathlib

/-!
Shallow embedding of the protoc-gen-tonic plugin (src/main.rs): the flag
parsing (`split_arg` and the per-category flag loops), the module resolution
and duplicate check, the output-map construction, and the output-routing loop
with its module-wrapping writer (`write_with_module`).  File-system effects
are modelled by an explicit state (`FS`): a set of existing directories and a
map from paths to file contents.  Hash maps from the source are modelled as
association lists whose observable operations are lookup and
shadowing insert.
-/

/-- Association-list lookup, modelling `HashMap::get`. -/
def map_get {κ α : Type} [DecidableEq κ] : List (κ × α) → κ → Option α
  | [], _ => none
  | (k₀, v) :: rest, k => if k₀ = k then some v else map_get rest k

/-- Shadowing insert, modelling `HashMap::insert`: the new binding hides any
older binding for the same key, which is observationally the same as
replacement since the maps are only read through `map_get`. -/
def map_insert {κ α : Type} (m : List (κ × α)) (k : κ) (v : α) : List (κ × α) :=
  (k, v) :: m

/-- Key-membership test, modelling `HashMap::contains_key`. -/
def map_contains {κ α : Type} [DecidableEq κ] (m : List (κ × α)) (k : κ) : Bool :=
  (map_get m k).isSome

/-- Split a character list at the first occurrence of `'='`, returning the
parts before and after it, or `none` when no `'='` occurs.  This models
`s.splitn(2, '=')` from `split_arg` in src/main.rs: `splitn(2, '=')` yields
one piece exactly when no `'='` is present, and otherwise the prefix before
the first `'='` and the whole remainder after it. -/
def splitn2_eq : List Char → Option (List Char × List Char)
  | [] => none
  | c :: cs =>
    if c = '=' then some ([], cs)
    else
      match splitn2_eq cs with
      | some (a, b) => some (c :: a, b)
      | none => none

/-- Embedding of `split_arg` (src/main.rs lines 73-80): split a flag of the
shape `selector=value` on the first `'='`; a flag with no `'='` panics, which
is modelled by `Except.error`. -/
def split_arg (s : String) : Except String (String × String) :=
  match splitn2_eq s.toList with
  | some (a, b) => .ok (String.mk a, String.mk b)
  | none => .error ("argument " ++ s ++ " is not in the form of a=b")

/-- Split a character list on a single separator character, keeping empty
pieces, with the semantics of Rust `str::split(sep)`. -/
def split_chars (sep : Char) : List Char → List (List Char)
  | [] => [[]]
  | c :: cs =>
    if c = sep then [] :: split_chars sep cs
    else
      match split_chars sep cs with
      | [] => [[c]]
      | a :: rest => (c :: a) :: rest

/-- Split a character list on the two-character separator `"::"`, keeping
empty pieces and consuming non-overlapping occurrences left to right, with
the semantics of Rust `str::split("::")` as used for module-in-file values. -/
def split_colons : List Char → List (List Char)
  | [] => [[]]
  | ':' :: ':' :: cs => [] :: split_colons cs
  | c :: cs =>
    match split_colons cs with
    | [] => [[c]]
    | a :: rest => (c :: a) :: rest

/-- Module identifiers are ordered lists of path segments. -/
abbrev ModuleId := List String

/-- Modelled from the spec: `Module::from_protobuf_package_name` lives in the
external prost-build crate; per the spec the ModuleId is derived by splitting
the dotted package name on `'.'`, with the empty package giving the root
(empty) module. -/
def module_from_package (s : String) : ModuleId :=
  ((split_chars '.' s.toList).map (fun l => String.mk l)).filter (fun x => x ≠ "")

/-- Modelled from the spec: the display form of a ModuleId used in panic
messages joins the segments with `"::"` (the spec renders `a.b.c` as
`a::b::c`). -/
def module_name : ModuleId → String
  | [] => ""
  | [x] => x
  | x :: xs => x ++ "::" ++ module_name xs

/-- Paths are modelled as lists of components; `pathbuf_from` models
`PathBuf::from` on a flag value by splitting on `'/'` and dropping empty
components. -/
def pathbuf_from (s : String) : List String :=
  ((split_chars '/' s.toList).map (fun l => String.mk l)).filter (fun x => x ≠ "")

/-- Embedding of the attribute-flag loops (src/main.rs lines 98-131): each
flag is split by `split_arg` and the two halves are handed to the external
generator configuration, which is opaque to the router; the only observable
effect for routing is the panic on a malformed flag. -/
def check_kv : List String → Except String Unit
  | [] => .ok ()
  | x :: xs =>
    match split_arg x with
    | .error e => .error e
    | .ok _ => check_kv xs

/-- Generic embedding of the two map-building loops (src/main.rs lines
191-201): split each flag and insert the transformed value under the selector
key, later flags shadowing earlier ones. -/
def build_kv {α : Type} (mk : String → α) (acc : List (String × α)) :
    List String → Except String (List (String × α))
  | [] => .ok acc
  | x :: xs =>
    match split_arg x with
    | .error e => .error e
    | .ok (a, b) => build_kv mk (map_insert acc a (mk b)) xs

/-- Embedding of the `output_map` construction (src/main.rs lines 191-195):
input-file path to destination `PathBuf`. -/
def build_output_map (xs : List String) : Except String (List (String × List String)) :=
  build_kv (fun b => pathbuf_from b) [] xs

/-- Embedding of the `module_in_file_map` construction (src/main.rs lines
197-201): input-file path to the `"::"`-separated wrap segments. -/
def build_module_in_file_map (xs : List String) :
    Except String (List (String × List String)) :=
  build_kv (fun b => (split_colons b.toList).map (fun l => String.mk l)) [] xs

/-- One input file descriptor; only the source path and the package name are
visible to the routing engine, the message/service payload is opaque. -/
structure FileDescriptor where
  name : String
  package : String
deriving DecidableEq

/-- Embedding of the command-line arguments (the `Args` struct, src/main.rs
lines 17-71); `output` is already converted to path components. -/
structure Args where
  input : String
  output : Option (List String)
  extern_path : List String
  field_attribute : List String
  type_attribute : List String
  message_attribute : List String
  enum_attribute : List String
  client_attribute : List String
  server_attribute : List String
  output_map : List String
  module_in_file : List String
  create_directory : Bool
deriving DecidableEq

/-- Embedding of the `module_to_input` construction (src/main.rs lines
171-185): walk the descriptors in order, deriving each ModuleId and recording
its source path, and panic on the first duplicate ModuleId.  The source
builds the generator request in the same pass; the request is recovered
separately by `make_request`. -/
def build_module_to_input :
    List FileDescriptor → List (ModuleId × String) →
    Except String (List (ModuleId × String))
  | [], acc => .ok acc
  | d :: rest, acc =>
    if map_contains acc (module_from_package d.package) then
      .error ("module duplicate: " ++ module_name (module_from_package d.package))
    else
      build_module_to_input rest (map_insert acc (module_from_package d.package) d.name)

/-- The generator request built in the same pass (src/main.rs line 183): each
descriptor paired with its ModuleId, in input order. -/
def make_request (files : List FileDescriptor) : List (ModuleId × FileDescriptor) :=
  files.map (fun d => (module_from_package d.package, d))

/-- Idealized file-system state: the set of existing directories and the
contents of the files, both keyed by component paths. -/
structure FS where
  dirs : List (List String)
  files : List (List String × String)
deriving DecidableEq

/-- All non-empty ancestor paths of a component path, shortest first. -/
def path_ancestors : List String → List (List String)
  | [] => []
  | x :: xs => [x] :: (path_ancestors xs).map (fun p => x :: p)

/-- Embedding of `Path::parent`: the path without its last component; `none`
for the empty path, and the empty path (the current directory) for a bare
file name. -/
def parent : List String → Option (List String)
  | [] => none
  | p => some p.dropLast

/-- Embedding of `std::fs::create_dir_all`: record the directory and every
ancestor as existing; on the empty path this is a no-op, as in the standard
library. -/
def create_dir_all (fs : FS) (p : List String) : FS :=
  { fs with dirs := path_ancestors p ++ fs.dirs }

/-- Whether `File::create` can succeed for this destination: its parent must
be the current directory or an existing directory. -/
def parent_exists (fs : FS) (p : List String) : Bool :=
  match parent p with
  | none => false
  | some [] => true
  | some par => decide (par ∈ fs.dirs)

/-- Embedding of `File::create`: fails when the parent directory is missing,
otherwise truncates the destination to empty content. -/
def file_create (fs : FS) (p : List String) : Except String FS :=
  if parent_exists fs p then
    .ok { fs with files := map_insert fs.files p "" }
  else .error ("failed to create file " ++ String.intercalate "/" p)

/-- Append text through an open handle positioned at the end of the file.
This matches the source whenever the handle's file is not concurrently
truncated by an explicit route aimed at the very same path before a later
append; the run-level theorems below only use it in that regime. -/
def file_append (fs : FS) (p : List String) (s : String) : FS :=
  { fs with files := map_insert fs.files p (((map_get fs.files p).getD "") ++ s) }

/-- Embedding of `writeln!`: append the line and a newline to the data
written so far. -/
def writeln (f : String) (line : String) : String :=
  f ++ line ++ "\n"

/-- Embedding of the opening loop of `write_with_module` (src/main.rs lines
83-85): one `pub mod x \x7b` line per wrap segment, in order. -/
def write_opens (f : String) : List String → String
  | [] => f
  | x :: xs => write_opens (writeln f ("pub mod " ++ x ++ " \x7b")) xs

/-- Embedding of the closing loop of `write_with_module` (src/main.rs lines
87-89): one closing-brace line per wrap segment. -/
def write_closes (f : String) : List String → String
  | [] => f
  | _ :: xs => write_closes (writeln f "\x7d") xs

/-- Embedding of `write_with_module` (src/main.rs lines 82-90): the opening
lines, then the content as one `writeln!`, then the closing lines, all
appended to the data `f` already written to the handle. -/
def write_with_module (f : String) (content : String) (modules : List String) : String :=
  write_closes (writeln (write_opens f modules) content) modules

/-- State threaded through the routing loop: the file system and the
lazily-opened fallback output handle (its path, when open). -/
structure RouterState where
  fs : FS
  output_file : Option (List String)
deriving DecidableEq

/-- Embedding of one iteration of the routing loop (src/main.rs lines
203-245): look up the module's input file, resolve the wrap segments, then
either write a fresh explicitly-routed file or append to the (lazily opened)
fallback output. -/
def process_module (args : Args) (om : List (String × List String))
    (mif : List (String × List String)) (mti : List (ModuleId × String))
    (st : RouterState) (module : ModuleId) (content : String) :
    Except String RouterState :=
  match map_get mti module with
  | none => .error "module_to_input.get returned none"
  | some input_file =>
    let modules_in_file := (map_get mif input_file).getD []
    match map_get om input_file with
    | some p =>
      let fs1 :=
        if args.create_directory then
          match parent p with
          | some par => create_dir_all st.fs par
          | none => st.fs
        else st.fs
      match file_create fs1 p with
      | .error e => .error e
      | .ok fs2 =>
        .ok { st with fs := file_append fs2 p (write_with_module "" content modules_in_file) }
    | none =>
      match st.output_file with
      | some fp =>
        .ok { st with fs := file_append st.fs fp (write_with_module "" content modules_in_file) }
      | none =>
        match args.output with
        | none => .error ("module " ++ module_name module ++ " has no output")
        | some output_path =>
          let fs1 :=
            if args.create_directory then
              match parent output_path with
              | some par => create_dir_all st.fs par
              | none => st.fs
            else st.fs
          match file_create fs1 output_path with
          | .error e => .error e
          | .ok fs2 =>
            .ok { fs := file_append fs2 output_path
                          (write_with_module "" content modules_in_file),
                  output_file := some output_path }

/-- Run the routing loop over the generated modules in order; on a panic the
files already written are left as they are, which is modelled by returning
the state reached so far together with the error. -/
def process_all (args : Args) (om : List (String × List String))
    (mif : List (String × List String)) (mti : List (ModuleId × String))
    (st : RouterState) : List (ModuleId × String) → RouterState × Option String
  | [] => (st, none)
  | (m, c) :: rest =>
    match process_module args om mif mti st m c with
    | .error e => (st, some e)
    | .ok st1 => process_all args om mif mti st1 rest

/-- Embedding of the pipeline stages before the routing loop, in source
order: the attribute-flag loops (lines 98-131), the module resolution with
its duplicate check (lines 171-185), and the two routing-map constructions
(lines 191-201).  The external generator invocation sits between the last
two stages in the source but is a total function in the model, so its
position is unobservable. -/
def run_pre (args : Args) (files : List FileDescriptor) :
    Except String
      (List (ModuleId × String) × List (String × List String) × List (String × List String)) :=
  match check_kv args.extern_path with
  | .error e => .error e
  | .ok _ =>
  match check_kv args.field_attribute with
  | .error e => .error e
  | .ok _ =>
  match check_kv args.type_attribute with
  | .error e => .error e
  | .ok _ =>
  match check_kv args.message_attribute with
  | .error e => .error e
  | .ok _ =>
  match check_kv args.enum_attribute with
  | .error e => .error e
  | .ok _ =>
  match check_kv args.server_attribute with
  | .error e => .error e
  | .ok _ =>
  match check_kv args.client_attribute with
  | .error e => .error e
  | .ok _ =>
  match build_module_to_input files [] with
  | .error e => .error e
  | .ok mti =>
  match build_output_map args.output_map with
  | .error e => .error e
  | .ok om =>
  match build_module_in_file_map args.module_in_file with
  | .error e => .error e
  | .ok mif => .ok (mti, om, mif)

/-- Embedding of the whole run (`main`), parameterized by the external
generator: the pre-loop stages, then the generator on the request, then the
routing loop on an initially closed fallback handle.  A panic before the
loop leaves the file system untouched. -/
def run (gen : List (ModuleId × FileDescriptor) → List (ModuleId × String))
    (args : Args) (files : List FileDescriptor) (fs0 : FS) :
    RouterState × Option String :=
  match run_pre args files with
  | .error e => ({ fs := fs0, output_file := none }, some e)
  | .ok (mti, om, mif) =>
    process_all args om mif mti { fs := fs0, output_file := none }
      (gen (make_request files))

/-- The destination the routing loop actually commits to for a module whose
descriptor has source path `input_file`: the output-map route when present,
otherwise the fallback path. -/
def resolve_destination (om : List (String × List String))
    (fallback : Option (List String)) (input_file : String) : Option (List String) :=
  match map_get om input_file with
  | some p => some p
  | none => fallback

/-- Modelled from the spec: the three-step priority chain of the Output
Router, including the module route keyed by ModuleId that the spec places
between the file-path route and the fallback. -/
def spec_resolve_destination (om : List (String × List String))
    (module_routes : List (ModuleId × List String)) (fallback : Option (List String))
    (input_file : String) (m : ModuleId) : Option (List String) :=
  match map_get om input_file with
  | some p => some p
  | none =>
    match map_get module_routes m with
    | some p => some p
    | none => fallback

/-- Whether a generated module has an explicit file-path route. -/
def has_explicit_route (om : List (String × List String))
    (mti : List (ModuleId × String)) (mc : ModuleId × String) : Bool :=
  match map_get mti mc.1 with
  | some i => (map_get om i).isSome
  | none => false

/-- Concatenation of a list of strings, used to state the shape of the
wrapped output. -/
def str_concat : List String → String
  | [] => ""
  | x :: xs => x ++ str_concat xs

/-- The text a module contributes to its destination: its generated content
wrapped in the module declarations registered for its input file. -/
def wrapped_output (mif : List (String × List String)) (input_file : String)
    (content : String) : String :=
  write_with_module "" content ((map_get mif input_file).getD [])

/-! ## Basic lemmas about the map and string models -/

theorem map_get_insert_self {κ α : Type} [DecidableEq κ] (m : List (κ × α)) (k : κ) (v : α) :
    map_get (map_insert m k v) k = some v := by
  simp [map_insert, map_get]

theorem map_get_insert_ne {κ α : Type} [DecidableEq κ] (m : List (κ × α)) (k q : κ) (v : α)
    (h : q ≠ k) : map_get (map_insert m k v) q = map_get m q := by
  have hne : ¬ (k = q) := fun h2 => h h2.symm
  simp [map_insert, map_get, hne]

theorem writeln_append (f g line : String) : writeln (f ++ g) line = f ++ writeln g line := by
  simp [writeln, String.append_assoc]

theorem write_opens_append (f g : String) (ms : List String) :
    write_opens (f ++ g) ms = f ++ write_opens g ms := by
  induction ms generalizing g with
  | nil => rfl
  | cons x xs ih => simp [write_opens, writeln_append, ih]

theorem write_closes_append (f g : String) (ms : List String) :
    write_closes (f ++ g) ms = f ++ write_closes g ms := by
  induction ms generalizing g with
  | nil => rfl
  | cons x xs ih => simp [write_closes, writeln_append, ih]

theorem write_with_module_append (f content : String) (ms : List String) :
    write_with_module f content ms = f ++ write_with_module "" content ms := by
  have h0 : writeln (write_opens f ms) content
      = f ++ writeln (write_opens "" ms) content := by
    have : write_opens f ms = f ++ write_opens "" ms := by
      calc write_opens f ms = write_opens (f ++ "") ms := by rw [String.append_empty]
        _ = f ++ write_opens "" ms := write_opens_append f "" ms
    rw [this, writeln_append]
  simp [write_with_module, h0, write_closes_append]

theorem write_opens_eq (f : String) (ms : List String) :
    write_opens f ms
      = f ++ str_concat (ms.map (fun m => "pub mod " ++ m ++ " \x7b\n")) := by
  induction ms generalizing f with
  | nil => simp [write_opens, str_concat, String.append_empty]
  | cons x xs ih =>
    have hlit : (" \x7b" : String) ++ "\n" = " \x7b\n" := rfl
    simp only [write_opens, ih, writeln, str_concat, List.map_cons, String.append_assoc, hlit]

theorem write_closes_eq (f : String) (ms : List String) :
    write_closes f ms = f ++ str_concat (ms.map (fun _ => "\x7d\n")) := by
  induction ms generalizing f with
  | nil => simp [write_closes, str_concat, String.append_empty]
  | cons x xs ih =>
    have hlit : ("\x7d" : String) ++ "\n" = "\x7d\n" := rfl
    simp only [write_closes, ih, writeln, str_concat, List.map_cons, String.append_assoc, hlit]

/-- C4: with a WrapSpec of segments `[m1, ..., mn]`, `write_with_module` emits
exactly the `n` opening module declarations in order, then the generated text
(as one written line), then `n` closing markers, appended to whatever was
already written; with zero segments the text passes through without any wrap
markers. -/
theorem C4_wrap_shape (f content : String) (ms : List String) :
    write_with_module f content ms
        = f ++ str_concat (ms.map (fun m => "pub mod " ++ m ++ " \x7b\n"))
            ++ content ++ "\n" ++ str_concat (ms.map (fun _ => "\x7d\n"))
      ∧ write_with_module f content [] = f ++ content ++ "\n" := by
  constructor
  · simp only [write_with_module, write_opens_eq, writeln, write_closes_eq,
      String.append_assoc]
  · simp [write_with_module, write_opens, write_closes, writeln]

/-! ## Lemmas about flag splitting and the pre-loop stages -/

theorem splitn2_eq_append (a b : List Char) (ha : '=' ∉ a) :
    splitn2_eq (a ++ '=' :: b) = some (a, b) := by
  induction a with
  | nil => simp [splitn2_eq]
  | cons c cs ih =>
    have hc : ¬ (c = '=') := fun h => ha (h ▸ List.mem_cons_self c cs)
    have hcs : '=' ∉ cs := fun h => ha (List.mem_cons_of_mem c h)
    simp [splitn2_eq, hc, ih hcs]

theorem splitn2_eq_none (l : List Char) (h : '=' ∉ l) : splitn2_eq l = none := by
  induction l with
  | nil => rfl
  | cons c cs ih =>
    have hc : ¬ (c = '=') := fun hh => h (hh ▸ List.mem_cons_self c cs)
    have hcs : '=' ∉ cs := fun hh => h (List.mem_cons_of_mem c hh)
    simp [splitn2_eq, hc, ih hcs]

theorem split_arg_error (s : String) (h : '=' ∉ s.toList) :
    split_arg s = .error ("argument " ++ s ++ " is not in the form of a=b") := by
  have h2 : splitn2_eq s.data = none := splitn2_eq_none s.toList h
  simp [split_arg, h2]

theorem check_kv_ok_wf (xs : List String) (h : check_kv xs = .ok ()) :
    ∀ x ∈ xs, ∃ p, split_arg x = .ok p := by
  induction xs with
  | nil => intro x hx; cases hx
  | cons y ys ih =>
    intro x hx
    unfold check_kv at h
    cases hy : split_arg y with
    | error e => rw [hy] at h; cases h
    | ok p =>
      rw [hy] at h
      rcases List.mem_cons.mp hx with rfl | hx
      · exact ⟨p, hy⟩
      · exact ih h x hx

theorem build_kv_ok_wf {α : Type} (mk : String → α) (xs : List String) :
    ∀ (acc : List (String × α)) (m : List (String × α)),
      build_kv mk acc xs = .ok m → ∀ x ∈ xs, ∃ p, split_arg x = .ok p := by
  induction xs with
  | nil => intro acc m _ x hx; cases hx
  | cons y ys ih =>
    intro acc m h x hx
    unfold build_kv at h
    cases hy : split_arg y with
    | error e => rw [hy] at h; cases h
    | ok p =>
      rw [hy] at h
      rcases List.mem_cons.mp hx with rfl | hx
      · exact ⟨p, hy⟩
      · exact ih (map_insert acc p.1 (mk p.2)) m h x hx

theorem run_pre_ok_inv (args : Args) (files : List FileDescriptor)
    (mti : List (ModuleId × String)) (om mif : List (String × List String))
    (h : run_pre args files = .ok (mti, om, mif)) :
    check_kv args.extern_path = .ok () ∧ check_kv args.field_attribute = .ok ()
    ∧ check_kv args.type_attribute = .ok () ∧ check_kv args.message_attribute = .ok ()
    ∧ check_kv args.enum_attribute = .ok () ∧ check_kv args.server_attribute = .ok ()
    ∧ check_kv args.client_attribute = .ok ()
    ∧ build_module_to_input files [] = .ok mti
    ∧ build_output_map args.output_map = .ok om
    ∧ build_module_in_file_map args.module_in_file = .ok mif := by
  unfold run_pre at h
  repeat' split at h
  all_goals simp_all

/-- All repeated `selector=value` flags of a run, in the order the source
parses them. -/
def all_kv_flags (args : Args) : List String :=
  args.extern_path ++ args.field_attribute ++ args.type_attribute
    ++ args.message_attribute ++ args.enum_attribute ++ args.server_attribute
    ++ args.client_attribute ++ args.output_map ++ args.module_in_file

/-- C7: a `selector=value` flag is split on the first `'='` only, so the
value may itself contain `'='` characters, and a flag containing no `'='` in
any of the repeated flag lists makes the run fail with no file written. -/
theorem C7_split_and_malformed_fatal (a b : List Char)
    (gen : List (ModuleId × FileDescriptor) → List (ModuleId × String))
    (args : Args) (files : List FileDescriptor) (fs0 : FS) (s : String)
    (ha : '=' ∉ a) (hs : s ∈ all_kv_flags args) (hne : '=' ∉ s.toList) :
    split_arg (String.mk (a ++ '=' :: b)) = .ok (String.mk a, String.mk b)
    ∧ (run gen args files fs0).1.fs = fs0
    ∧ ∃ e, (run gen args files fs0).2 = some e := by
  refine ⟨?_, ?_⟩
  · have h2 : splitn2_eq (a ++ '=' :: b) = some (a, b) := splitn2_eq_append a b ha
    simp [split_arg, h2]
  · cases hrp : run_pre args files with
    | error e => exact ⟨by simp [run, hrp], ⟨e, by simp [run, hrp]⟩⟩
    | ok r =>
      exfalso
      obtain ⟨mti, om, mif⟩ := r
      have hinv := run_pre_ok_inv args files mti om mif hrp
      have herr := split_arg_error s hne
      simp only [all_kv_flags, List.mem_append] at hs
      rcases hs with ((((((((h | h) | h) | h) | h) | h) | h) | h) | h)
      · obtain ⟨p, hp⟩ := check_kv_ok_wf _ hinv.1 s h
        rw [herr] at hp; cases hp
      · obtain ⟨p, hp⟩ := check_kv_ok_wf _ hinv.2.1 s h
        rw [herr] at hp; cases hp
      · obtain ⟨p, hp⟩ := check_kv_ok_wf _ hinv.2.2.1 s h
        rw [herr] at hp; cases hp
      · obtain ⟨p, hp⟩ := check_kv_ok_wf _ hinv.2.2.2.1 s h
        rw [herr] at hp; cases hp
      · obtain ⟨p, hp⟩ := check_kv_ok_wf _ hinv.2.2.2.2.1 s h
        rw [herr] at hp; cases hp
      · obtain ⟨p, hp⟩ := check_kv_ok_wf _ hinv.2.2.2.2.2.1 s h
        rw [herr] at hp; cases hp
      · obtain ⟨p, hp⟩ := check_kv_ok_wf _ hinv.2.2.2.2.2.2.1 s h
        rw [herr] at hp; cases hp
      · obtain ⟨p, hp⟩ :=
          build_kv_ok_wf (fun b => pathbuf_from b) args.output_map [] om
            hinv.2.2.2.2.2.2.2.2.1 s h
        rw [herr] at hp; cases hp
      · obtain ⟨p, hp⟩ :=
          build_kv_ok_wf (fun b => (split_colons b.toList).map (fun l => String.mk l))
            args.module_in_file [] mif hinv.2.2.2.2.2.2.2.2.2 s h
        rw [herr] at hp; cases hp

/-- Empty file system used by the concrete witnesses. -/
def fs_empty : FS := { dirs := [], files := [] }

/-- Baseline argument record used by the concrete witnesses. -/
def args_base : Args :=
  { input := "-", output := none, extern_path := [], field_attribute := [],
    type_attribute := [], message_attribute := [], enum_attribute := [],
    client_attribute := [], server_attribute := [], output_map := [],
    module_in_file := [], create_directory := false }

/-- Concrete stand-in for the external generator used by the witnesses: one
text per module, derived from the package name. -/
def gen_simple : List (ModuleId × FileDescriptor) → List (ModuleId × String) :=
  fun r => r.map (fun p => (p.1, "gen:" ++ p.2.package))

/-- Witness for C7 at the malformed flag `"novalue"` in the extern-path list
and the flag `a=b=c`. -/
theorem C7_witness :
    split_arg (String.mk (['a'] ++ '=' :: ['b', '=', 'c']))
        = .ok (String.mk ['a'], String.mk ['b', '=', 'c'])
    ∧ (run gen_simple { args_base with extern_path := ["novalue"] }
          [{ name := "a.proto", package := "pa" }] fs_empty).1.fs = fs_empty
    ∧ ∃ e, (run gen_simple { args_base with extern_path := ["novalue"] }
          [{ name := "a.proto", package := "pa" }] fs_empty).2 = some e :=
  C7_split_and_malformed_fatal ['a'] ['b', '=', 'c'] gen_simple
    { args_base with extern_path := ["novalue"] }
    [{ name := "a.proto", package := "pa" }] fs_empty "novalue"
    (by decide) (by decide) (by decide)

/-! ## Duplicate-module detection -/

theorem map_contains_insert {κ α : Type} [DecidableEq κ] (m : List (κ × α)) (k q : κ) (v : α) :
    map_contains (map_insert m k v) q = (decide (k = q) || map_contains m q) := by
  by_cases h : k = q <;> simp [map_contains, map_insert, map_get, h]

theorem build_mti_ok_not_contains :
    ∀ (xs : List FileDescriptor) (acc m : List (ModuleId × String)),
      build_module_to_input xs acc = .ok m →
      ∀ d ∈ xs, map_contains acc (module_from_package d.package) = false := by
  intro xs
  induction xs with
  | nil => intro acc m _ d hd; cases hd
  | cons y ys ih =>
    intro acc m h d hd
    simp only [build_module_to_input] at h
    split at h
    · cases h
    · rename_i hcond
      rcases List.mem_cons.mp hd with rfl | hd
      · simpa using hcond
      · have h2 := ih (map_insert acc (module_from_package y.package) y.name) m h d hd
        rw [map_contains_insert] at h2
        exact (Bool.or_eq_false_iff.mp h2).2

theorem build_mti_dup_ne :
    ∀ (l1 : List FileDescriptor) (d1 : FileDescriptor) (l2 : List FileDescriptor)
      (d2 : FileDescriptor) (l3 : List FileDescriptor) (acc m : List (ModuleId × String)),
      build_module_to_input (l1 ++ d1 :: l2 ++ d2 :: l3) acc = .ok m →
      module_from_package d1.package ≠ module_from_package d2.package := by
  intro l1
  induction l1 with
  | nil =>
    intro d1 l2 d2 l3 acc m h heq
    rw [List.nil_append, List.cons_append] at h
    simp only [build_module_to_input] at h
    split at h
    · cases h
    · have h2 := build_mti_ok_not_contains _ _ _ h d2
        (List.mem_append_right l2 (List.mem_cons_self d2 l3))
      rw [← heq, map_contains_insert] at h2
      simp at h2
  | cons x xs ih =>
    intro d1 l2 d2 l3 acc m h
    rw [List.cons_append] at h
    simp only [build_module_to_input] at h
    split at h
    · cases h
    · exact ih d1 l2 d2 l3 _ m h

/-- C2: two descriptors with the same package name resolve to the same
ModuleId and make the run fail fatally before the generator is invoked: the
file system is untouched and the outcome does not depend on the generator. -/
theorem C2_duplicate_module_fatal
    (gen gen2 : List (ModuleId × FileDescriptor) → List (ModuleId × String))
    (args : Args) (l1 l2 l3 : List FileDescriptor) (d1 d2 : FileDescriptor) (fs0 : FS)
    (hpkg : d1.package = d2.package) :
    (run gen args (l1 ++ d1 :: l2 ++ d2 :: l3) fs0).1.fs = fs0
    ∧ (∃ e, (run gen args (l1 ++ d1 :: l2 ++ d2 :: l3) fs0).2 = some e)
    ∧ run gen args (l1 ++ d1 :: l2 ++ d2 :: l3) fs0
        = run gen2 args (l1 ++ d1 :: l2 ++ d2 :: l3) fs0 := by
  have hdup : ∀ r, run_pre args (l1 ++ d1 :: l2 ++ d2 :: l3) ≠ .ok r := by
    intro r hr
    obtain ⟨mti, om, mif⟩ := r
    have hinv := run_pre_ok_inv args _ mti om mif hr
    exact build_mti_dup_ne l1 d1 l2 d2 l3 [] mti hinv.2.2.2.2.2.2.2.1 (by rw [hpkg])
  cases hrp : run_pre args (l1 ++ d1 :: l2 ++ d2 :: l3) with
  | error e =>
    unfold run
    rw [hrp]
    exact ⟨rfl, ⟨e, rfl⟩, rfl⟩
  | ok r => exact absurd hrp (hdup r)

/-- Witness for C2: two descriptors with the identical package `"pa"`. -/
theorem C2_witness :
    (run gen_simple args_base
        ([] ++ { name := "a.proto", package := "pa" }
          :: [] ++ { name := "b.proto", package := "pa" } :: []) fs_empty).1.fs = fs_empty
    ∧ (∃ e, (run gen_simple args_base
        ([] ++ { name := "a.proto", package := "pa" }
          :: [] ++ { name := "b.proto", package := "pa" } :: []) fs_empty).2 = some e)
    ∧ run gen_simple args_base
        ([] ++ { name := "a.proto", package := "pa" }
          :: [] ++ { name := "b.proto", package := "pa" } :: []) fs_empty
      = run (fun _ => []) args_base
        ([] ++ { name := "a.proto", package := "pa" }
          :: [] ++ { name := "b.proto", package := "pa" } :: []) fs_empty :=
  C2_duplicate_module_fatal gen_simple (fun _ => []) args_base [] [] []
    { name := "a.proto", package := "pa" } { name := "b.proto", package := "pa" }
    fs_empty rfl

/-! ## Routing-loop lemmas -/

/-- C6: a module with no output-map route, while the fallback handle is still
closed and no fallback output path was configured, fails with the
`module ... has no output` panic naming the module. -/
theorem C6_no_output_fatal (args : Args) (om mif : List (String × List String))
    (mti : List (ModuleId × String)) (st : RouterState) (m : ModuleId) (c i : String)
    (hmti : map_get mti m = some i) (hom : map_get om i = none)
    (hst : st.output_file = none) (hout : args.output = none) :
    process_module args om mif mti st m c
      = .error ("module " ++ module_name m ++ " has no output") := by
  simp [process_module, hmti, hom, hst, hout]

/-- Witness for C6 at a single unrouted module `pa`. -/
theorem C6_witness :
    process_module args_base [] [] [(["pa"], "a.proto")]
        { fs := fs_empty, output_file := none } ["pa"] "T"
      = .error ("module " ++ module_name ["pa"] ++ " has no output") :=
  C6_no_output_fatal args_base [] [] [(["pa"], "a.proto")]
    { fs := fs_empty, output_file := none } ["pa"] "T" "a.proto" rfl rfl rfl rfl

theorem parent_cons (x : String) (xs : List String) :
    parent (x :: xs) = some ((x :: xs).dropLast) := rfl

theorem parent_eq_dropLast (p : List String) (hp : p ≠ []) :
    parent p = some p.dropLast := by
  cases p with
  | nil => exact absurd rfl hp
  | cons x xs => rfl

theorem ancestors_self : ∀ (q : List String), q ≠ [] → q ∈ path_ancestors q := by
  intro q
  induction q with
  | nil => intro h; exact absurd rfl h
  | cons x xs ih =>
    intro _
    cases xs with
    | nil => simp [path_ancestors]
    | cons y ys =>
      have hmem : y :: ys ∈ path_ancestors (y :: ys) := ih (by simp)
      simp only [path_ancestors, List.mem_cons]
      right
      exact List.mem_map.mpr ⟨y :: ys, hmem, rfl⟩

theorem parent_exists_mkdir (fs : FS) (p : List String) (hp : p ≠ []) :
    parent_exists (create_dir_all fs p.dropLast) p = true := by
  unfold parent_exists
  rw [parent_eq_dropLast p hp]
  cases hd : p.dropLast with
  | nil => rfl
  | cons x xs =>
    have hmem : (x :: xs) ∈ path_ancestors (x :: xs) := ancestors_self _ (by simp)
    simp only [create_dir_all, hd]
    exact decide_eq_true (List.mem_append_left _ hmem)

theorem file_create_mkdir (fs : FS) (p : List String) (hp : p ≠ []) :
    file_create (create_dir_all fs p.dropLast) p
      = .ok { dirs := path_ancestors p.dropLast ++ fs.dirs,
              files := map_insert fs.files p "" } := by
  have h := parent_exists_mkdir fs p hp
  unfold file_create
  rw [h]
  simp [create_dir_all]

/-- C1 (amended): the destination the routing loop commits to is the
output-map route for the module's input file when one exists and otherwise
the fallback path, which is fatal when unconfigured; this two-step resolution
agrees with the spec's three-step chain exactly when the module-route table of
the chain is empty, and the loop writes the module's wrapped text to that
destination and to no other file. -/
theorem C1_route_chain (args : Args) (om mif : List (String × List String))
    (mti : List (ModuleId × String)) (st : RouterState) (m m2 : ModuleId) (c i : String)
    (hmti : map_get mti m = some i)
    (hcoh : ∀ q, st.output_file = some q → args.output = some q)
    (hcd : args.create_directory = true)
    (hne1 : ∀ p, map_get om i = some p → p ≠ [])
    (hne2 : ∀ p, args.output = some p → p ≠ []) :
    spec_resolve_destination om [] args.output i m2 = resolve_destination om args.output i
    ∧ match resolve_destination om args.output i with
      | none => process_module args om mif mti st m c
          = .error ("module " ++ module_name m ++ " has no output")
      | some p => ∃ st2 pre, process_module args om mif mti st m c = .ok st2
          ∧ map_get st2.fs.files p = some (pre ++ wrapped_output mif i c)
          ∧ ∀ q, q ≠ p → map_get st2.fs.files q = map_get st.fs.files q := by
  constructor
  · cases hom : map_get om i <;>
      simp [spec_resolve_destination, resolve_destination, hom, map_get]
  · cases hom : map_get om i with
    | some p =>
      have hp : p ≠ [] := hne1 p hom
      have hpm : process_module args om mif mti st m c
          = .ok ⟨file_append
              ⟨path_ancestors p.dropLast ++ st.fs.dirs, map_insert st.fs.files p ""⟩ p
              (write_with_module "" c ((map_get mif i).getD [])), st.output_file⟩ := by
        simp only [process_module, hmti, hom, hcd, if_true, parent_eq_dropLast p hp,
          file_create_mkdir st.fs p hp]
      simp only [resolve_destination, hom]
      refine ⟨_, "", hpm, ?_, ?_⟩
      · simp [file_append, map_get_insert_self, wrapped_output]
      · intro q hq
        simp [file_append, map_get_insert_ne _ _ _ _ hq]
    | none =>
      cases hst : st.output_file with
      | some fp =>
        have hfp := hcoh fp hst
        have hpm : process_module args om mif mti st m c
            = .ok ⟨file_append st.fs fp
                (write_with_module "" c ((map_get mif i).getD [])), st.output_file⟩ := by
          simp only [process_module, hmti, hom, hst]
        simp only [resolve_destination, hom, hfp]
        refine ⟨_, (map_get st.fs.files fp).getD "", hpm, ?_, ?_⟩
        · simp [file_append, map_get_insert_self, wrapped_output]
        · intro q hq
          simp [file_append, map_get_insert_ne _ _ _ _ hq]
      | none =>
        cases hout : args.output with
        | none =>
          simp only [resolve_destination, hom]
          simp [process_module, hmti, hom, hst, hout]
        | some op =>
          have hp : op ≠ [] := hne2 op hout
          have hpm : process_module args om mif mti st m c
              = .ok ⟨file_append
                  ⟨path_ancestors op.dropLast ++ st.fs.dirs, map_insert st.fs.files op ""⟩ op
                  (write_with_module "" c ((map_get mif i).getD [])), some op⟩ := by
            simp only [process_module, hmti, hom, hst, hout, hcd, if_true,
              parent_eq_dropLast op hp, file_create_mkdir st.fs op hp]
          simp only [resolve_destination, hom]
          refine ⟨_, "", hpm, ?_, ?_⟩
          · simp [file_append, map_get_insert_self, wrapped_output]
          · intro q hq
            simp [file_append, map_get_insert_ne _ _ _ _ hq]

/-- Counterexample for C1 as stated: the program has no ModuleId-keyed route
table, so the middle step of the claimed chain never applies.  With a module
route registered for module `pa` in the spec chain, the chain resolves a
destination, yet the run on the very same configuration (which cannot carry
any module route) fails with `module pa has no output` and writes nothing. -/
theorem C1_counterexample :
    spec_resolve_destination [] [(["pa"], ["m.rs"])] none "a.proto" ["pa"] = some ["m.rs"]
    ∧ (run gen_simple args_base [{ name := "a.proto", package := "pa" }] fs_empty).2
        = some "module pa has no output"
    ∧ (run gen_simple args_base [{ name := "a.proto", package := "pa" }] fs_empty).1.fs
        = fs_empty := by
  refine ⟨rfl, by decide, by decide⟩

/-- Witness for C1 at a module routed by the output map to `x.rs`. -/
theorem C1_witness :
    spec_resolve_destination [("a.proto", ["x.rs"])] [] none "a.proto" ["pa"]
        = resolve_destination [("a.proto", ["x.rs"])] none "a.proto"
    ∧ match resolve_destination [("a.proto", ["x.rs"])] none "a.proto" with
      | none => process_module { args_base with create_directory := true }
          [("a.proto", ["x.rs"])] [] [(["pa"], "a.proto")]
          { fs := fs_empty, output_file := none } ["pa"] "T"
          = .error ("module " ++ module_name ["pa"] ++ " has no output")
      | some p => ∃ st2 pre, process_module { args_base with create_directory := true }
          [("a.proto", ["x.rs"])] [] [(["pa"], "a.proto")]
          { fs := fs_empty, output_file := none } ["pa"] "T" = .ok st2
          ∧ map_get st2.fs.files p = some (pre ++ wrapped_output [] "a.proto" "T")
          ∧ ∀ q, q ≠ p →
              map_get st2.fs.files q
                = map_get ({ fs := fs_empty, output_file := none } : RouterState).fs.files q :=
  C1_route_chain { args_base with create_directory := true } [("a.proto", ["x.rs"])] []
    [(["pa"], "a.proto")] { fs := fs_empty, output_file := none } ["pa"] ["pa"] "T" "a.proto"
    rfl (fun q h => Option.noConfusion h) rfl
    (fun p h => by
      rw [show map_get [("a.proto", ["x.rs"])] "a.proto" = some ["x.rs"] from rfl] at h
      cases h
      simp)
    (fun p h => Option.noConfusion h)

theorem file_create_ok (fs : FS) (p : List String) (h : parent_exists fs p = true) :
    file_create fs p = .ok { fs with files := map_insert fs.files p "" } := by
  unfold file_create
  rw [h]
  simp

theorem process_all_fallback_append (args : Args) (om mif : List (String × List String))
    (mti : List (ModuleId × String)) (out : List String) :
    ∀ (ms : List (ModuleId × String)) (st : RouterState) (s : String),
      st.output_file = some out →
      map_get st.fs.files out = some s →
      (∀ mc ∈ ms, ∃ i, map_get mti mc.1 = some i ∧ map_get om i = none) →
      (process_all args om mif mti st ms).2 = none
      ∧ (process_all args om mif mti st ms).1.output_file = some out
      ∧ map_get (process_all args om mif mti st ms).1.fs.files out
          = some (s ++ str_concat (ms.map (fun mc =>
              wrapped_output mif ((map_get mti mc.1).getD "") mc.2))) := by
  intro ms
  induction ms with
  | nil =>
    intro st s hof hs _
    refine ⟨rfl, hof, ?_⟩
    simp only [process_all, List.map_nil, str_concat, String.append_empty]
    exact hs
  | cons mc rest ih =>
    intro st s hof hs hms
    obtain ⟨i, hmti, hom⟩ := hms mc (List.mem_cons_self mc rest)
    obtain ⟨m0, c0⟩ := mc
    have hpm : process_module args om mif mti st m0 c0
        = .ok ⟨file_append st.fs out
            (write_with_module "" c0 ((map_get mif i).getD [])), st.output_file⟩ := by
      simp only [process_module, hmti, hom, hof]
    have hst2 : map_get (file_append st.fs out
        (write_with_module "" c0 ((map_get mif i).getD []))).files out
        = some (s ++ write_with_module "" c0 ((map_get mif i).getD [])) := by
      simp [file_append, map_get_insert_self, hs]
    have hrec := ih ⟨file_append st.fs out
        (write_with_module "" c0 ((map_get mif i).getD [])), st.output_file⟩
      (s ++ write_with_module "" c0 ((map_get mif i).getD []))
      hof hst2 (fun mc2 h2 => hms mc2 (List.mem_cons_of_mem _ h2))
    simp only [process_all, hpm]
    refine ⟨hrec.1, hrec.2.1, ?_⟩
    rw [hrec.2.2]
    simp only [List.map_cons, str_concat, String.append_assoc, wrapped_output, hmti,
      Option.getD_some]

/-- C3 (part of the statement): the wrapped text of every fallback-routed
module lands in the single fallback file, concatenated in generator-return
order; the content of the fallback file after the run does not depend on its
initial content (it is truncated exactly once, at the lazy first open), and
each module's text carries its own wrap markers. -/
theorem C3_fallback_accumulates
    (gen : List (ModuleId × FileDescriptor) → List (ModuleId × String))
    (args : Args) (files : List FileDescriptor) (fs0 : FS)
    (mti : List (ModuleId × String)) (om mif : List (String × List String))
    (out : List String) (m0 : ModuleId) (c0 : String) (rest : List (ModuleId × String))
    (hpre : run_pre args files = .ok (mti, om, mif))
    (hout : args.output = some out)
    (hcd : args.create_directory = false)
    (hpar : parent_exists fs0 out = true)
    (hgen : gen (make_request files) = (m0, c0) :: rest)
    (hms : ∀ mc ∈ gen (make_request files),
        ∃ i, map_get mti mc.1 = some i ∧ map_get om i = none) :
    process_all args om mif mti ⟨fs0, none⟩ [] = (⟨fs0, none⟩, none)
    ∧ (run gen args files fs0).2 = none
    ∧ (run gen args files fs0).1.output_file = some out
    ∧ map_get (run gen args files fs0).1.fs.files out
        = some (str_concat (((m0, c0) :: rest).map (fun mc =>
            wrapped_output mif ((map_get mti mc.1).getD "") mc.2))) := by
  rw [hgen] at hms
  obtain ⟨i, hmti, hom⟩ := hms (m0, c0) (List.mem_cons_self _ rest)
  have hrun : run gen args files fs0
      = process_all args om mif mti ⟨fs0, none⟩ ((m0, c0) :: rest) := by
    unfold run
    rw [hpre, hgen]
  have hpm : process_module args om mif mti ⟨fs0, none⟩ m0 c0
      = .ok ⟨file_append { fs0 with files := map_insert fs0.files out "" } out
          (write_with_module "" c0 ((map_get mif i).getD [])), some out⟩ := by
    simp only [process_module, hmti, hom, hout, hcd, Bool.false_eq_true, if_false,
      file_create_ok fs0 out hpar]
  have hst1 : map_get (file_append { fs0 with files := map_insert fs0.files out "" } out
      (write_with_module "" c0 ((map_get mif i).getD []))).files out
      = some ("" ++ write_with_module "" c0 ((map_get mif i).getD [])) := by
    simp [file_append, map_get_insert_self]
  have hrec := process_all_fallback_append args om mif mti out rest
    ⟨file_append { fs0 with files := map_insert fs0.files out "" } out
      (write_with_module "" c0 ((map_get mif i).getD [])), some out⟩
    ("" ++ write_with_module "" c0 ((map_get mif i).getD []))
    rfl hst1 (fun mc2 h2 => hms mc2 (List.mem_cons_of_mem _ h2))
  refine ⟨rfl, ?_, ?_, ?_⟩
  · rw [hrun]
    simp only [process_all, hpm]
    exact hrec.1
  · rw [hrun]
    simp only [process_all, hpm]
    exact hrec.2.1
  · rw [hrun]
    simp only [process_all, hpm]
    rw [hrec.2.2]
    simp only [List.map_cons, str_concat, String.empty_append, String.append_assoc,
      wrapped_output, hmti, Option.getD_some]

/-- Three-package descriptor set used by the concrete witnesses. -/
def files_abc : List FileDescriptor :=
  [{ name := "a.proto", package := "pa" }, { name := "b.proto", package := "pb" },
   { name := "c.proto", package := "pc" }]

/-- Witness for C3: three unrouted packages accumulate in the fallback file. -/
theorem C3_witness :
    process_all { args_base with output := some ["out.rs"] } [] []
        [(["pc"], "c.proto"), (["pb"], "b.proto"), (["pa"], "a.proto")]
        ⟨fs_empty, none⟩ [] = (⟨fs_empty, none⟩, none)
    ∧ (run gen_simple { args_base with output := some ["out.rs"] } files_abc fs_empty).2
        = none
    ∧ (run gen_simple { args_base with output := some ["out.rs"] } files_abc
        fs_empty).1.output_file = some ["out.rs"]
    ∧ map_get (run gen_simple { args_base with output := some ["out.rs"] } files_abc
          fs_empty).1.fs.files ["out.rs"]
        = some (str_concat (((["pa"], "gen:pa")
            :: [(["pb"], "gen:pb"), (["pc"], "gen:pc")]).map (fun mc =>
            wrapped_output []
              ((map_get [(["pc"], "c.proto"), (["pb"], "b.proto"), (["pa"], "a.proto")]
                mc.1).getD "") mc.2))) :=
  C3_fallback_accumulates gen_simple { args_base with output := some ["out.rs"] }
    files_abc fs_empty [(["pc"], "c.proto"), (["pb"], "b.proto"), (["pa"], "a.proto")]
    [] [] ["out.rs"] ["pa"] "gen:pa" [(["pb"], "gen:pb"), (["pc"], "gen:pc")]
    rfl rfl rfl rfl rfl
    (by
      intro mc hmc
      rw [show gen_simple (make_request files_abc)
          = [(["pa"], "gen:pa"), (["pb"], "gen:pb"), (["pc"], "gen:pc")] from rfl] at hmc
      simp only [List.mem_cons, List.not_mem_nil, or_false] at hmc
      rcases hmc with rfl | rfl | rfl
      · exact ⟨"a.proto", rfl, rfl⟩
      · exact ⟨"b.proto", rfl, rfl⟩
      · exact ⟨"c.proto", rfl, rfl⟩)

/-- C5 (amended): when the explicit route's destination differs from the
fallback path, an explicitly routed module's wrapped text lands alone in its
routed file (freshly created, so any previous content is truncated away) and
the fallback-routed module's text lands in the fallback file; the two files
share no content.  The distinctness hypothesis is necessary: an explicit
route aimed at the very fallback path makes the two destinations one file. -/
theorem C5_explicit_exclusive
    (gen : List (ModuleId × FileDescriptor) → List (ModuleId × String))
    (args : Args) (files : List FileDescriptor) (fs0 : FS)
    (mti : List (ModuleId × String)) (om mif : List (String × List String))
    (mA mB : ModuleId) (cA cB iA iB : String) (p q : List String)
    (hpre : run_pre args files = .ok (mti, om, mif))
    (hgen : gen (make_request files) = [(mA, cA), (mB, cB)])
    (hA : map_get mti mA = some iA) (hB : map_get mti mB = some iB)
    (homA : map_get om iA = some p) (homB : map_get om iB = none)
    (hout : args.output = some q) (hpq : p ≠ q)
    (hcd : args.create_directory = false)
    (hp1 : parent_exists fs0 p = true) (hp2 : parent_exists fs0 q = true) :
    (run gen args files fs0).2 = none
    ∧ map_get (run gen args files fs0).1.fs.files p = some (wrapped_output mif iA cA)
    ∧ map_get (run gen args files fs0).1.fs.files q = some (wrapped_output mif iB cB) := by
  have hrun : run gen args files fs0
      = process_all args om mif mti ⟨fs0, none⟩ [(mA, cA), (mB, cB)] := by
    unfold run
    rw [hpre, hgen]
  have hpmA : process_module args om mif mti ⟨fs0, none⟩ mA cA
      = .ok ⟨file_append { fs0 with files := map_insert fs0.files p "" } p
          (write_with_module "" cA ((map_get mif iA).getD [])), none⟩ := by
    simp only [process_module, hA, homA, hcd, Bool.false_eq_true, if_false,
      file_create_ok fs0 p hp1]
  have hp2b : parent_exists (file_append { fs0 with files := map_insert fs0.files p "" } p
      (write_with_module "" cA ((map_get mif iA).getD []))) q = true := hp2
  have hpmB : process_module args om mif mti
      ⟨file_append { fs0 with files := map_insert fs0.files p "" } p
          (write_with_module "" cA ((map_get mif iA).getD [])), none⟩ mB cB
      = .ok ⟨file_append
          { file_append { fs0 with files := map_insert fs0.files p "" } p
              (write_with_module "" cA ((map_get mif iA).getD [])) with
            files := map_insert (file_append { fs0 with files := map_insert fs0.files p "" } p
              (write_with_module "" cA ((map_get mif iA).getD []))).files q "" } q
          (write_with_module "" cB ((map_get mif iB).getD [])), some q⟩ := by
    simp only [process_module, hB, homB, hout, hcd, Bool.false_eq_true, if_false,
      file_create_ok _ q hp2b]
  refine ⟨?_, ?_, ?_⟩ <;> rw [hrun] <;> simp only [process_all, hpmA, hpmB]
  · simp [file_append, wrapped_output, map_get_insert_self,
      map_get_insert_ne _ _ _ _ hpq]
  · simp [file_append, wrapped_output, map_get_insert_self,
      map_get_insert_ne _ _ _ _ hpq]

/-- Counterexample for C5 as stated: nothing stops an explicit route from
targeting the very path configured as the fallback.  Routing `a.proto` to
`out.rs` while `out.rs` is also the fallback, package `pa` is written first
and then destroyed when the fallback lazily re-creates `out.rs` for package
`pb`: the routed file and the fallback file are one file, its final content
is `pb`'s text alone, and `pa`'s output is gone rather than landing solely in
its routed file. -/
theorem C5_counterexample :
    (run gen_simple
        { args_base with output := some ["out.rs"], output_map := ["a.proto=out.rs"] }
        [{ name := "a.proto", package := "pa" }, { name := "b.proto", package := "pb" }]
        fs_empty).2 = none
    ∧ map_get (run gen_simple
        { args_base with output := some ["out.rs"], output_map := ["a.proto=out.rs"] }
        [{ name := "a.proto", package := "pa" }, { name := "b.proto", package := "pb" }]
        fs_empty).1.fs.files ["out.rs"] = some (write_with_module "" "gen:pb" [])
    ∧ write_with_module "" "gen:pa" [] ≠ write_with_module "" "gen:pb" [] := by
  refine ⟨by decide, by decide, by decide⟩

/-- Witness for C5 at routed destination `a.rs` and fallback `out.rs`. -/
theorem C5_witness :
    (run gen_simple
        { args_base with output := some ["out.rs"], output_map := ["a.proto=a.rs"] }
        [{ name := "a.proto", package := "pa" }, { name := "b.proto", package := "pb" }]
        fs_empty).2 = none
    ∧ map_get (run gen_simple
        { args_base with output := some ["out.rs"], output_map := ["a.proto=a.rs"] }
        [{ name := "a.proto", package := "pa" }, { name := "b.proto", package := "pb" }]
        fs_empty).1.fs.files ["a.rs"] = some (wrapped_output [] "a.proto" "gen:pa")
    ∧ map_get (run gen_simple
        { args_base with output := some ["out.rs"], output_map := ["a.proto=a.rs"] }
        [{ name := "a.proto", package := "pa" }, { name := "b.proto", package := "pb" }]
        fs_empty).1.fs.files ["out.rs"] = some (wrapped_output [] "b.proto" "gen:pb") :=
  C5_explicit_exclusive gen_simple
    { args_base with output := some ["out.rs"], output_map := ["a.proto=a.rs"] }
    [{ name := "a.proto", package := "pa" }, { name := "b.proto", package := "pb" }]
    fs_empty [(["pb"], "b.proto"), (["pa"], "a.proto")] [("a.proto", ["a.rs"])] []
    ["pa"] ["pb"] "gen:pa" "gen:pb" "a.proto" "b.proto" ["a.rs"] ["out.rs"]
    rfl rfl (by decide) (by decide) (by decide) (by decide) rfl
    (by decide) rfl rfl rfl

theorem parent_exists_false (fs : FS) (p : List String)
    (h1 : p ≠ []) (h2 : p.dropLast ≠ []) (h3 : p.dropLast ∉ fs.dirs) :
    parent_exists fs p = false := by
  unfold parent_exists
  rw [parent_eq_dropLast p h1]
  cases hd : p.dropLast with
  | nil => exact absurd hd h2
  | cons x xs =>
    rw [hd] at h3
    exact decide_eq_false h3

theorem file_create_fail (fs : FS) (p : List String)
    (h1 : p ≠ []) (h2 : p.dropLast ≠ []) (h3 : p.dropLast ∉ fs.dirs) :
    file_create fs p = .error ("failed to create file " ++ String.intercalate "/" p) := by
  unfold file_create
  rw [parent_exists_false fs p h1 h2 h3]
  simp

/-- C8: with directory creation enabled, the parent directory of the
destination and all of its ancestors are created before the destination file
is opened, so the write succeeds even though the parent was absent, for both
the explicitly routed branch and the fallback branch; with directory creation
disabled, opening a destination whose parent directory is absent fails, again
in both branches. -/
theorem C8_directory_creation
    (args1 : Args) (om1 mif1 : List (String × List String))
    (mti1 : List (ModuleId × String)) (st1 : RouterState) (m1 : ModuleId) (c1 i1 : String)
    (p : List String)
    (args2 : Args) (om2 mif2 : List (String × List String))
    (mti2 : List (ModuleId × String)) (st2 : RouterState) (m2 : ModuleId) (c2 i2 : String)
    (out : List String)
    (h1 : map_get mti1 m1 = some i1) (h2 : map_get om1 i1 = some p)
    (h3 : p ≠ []) (h4 : p.dropLast ≠ []) (h5 : p.dropLast ∉ st1.fs.dirs)
    (h6 : map_get mti2 m2 = some i2) (h7 : map_get om2 i2 = none)
    (h8 : st2.output_file = none) (h9 : args2.output = some out)
    (h10 : out ≠ []) (h11 : out.dropLast ≠ []) (h12 : out.dropLast ∉ st2.fs.dirs) :
    (∃ st3, process_module { args1 with create_directory := true } om1 mif1 mti1 st1 m1 c1
        = .ok st3 ∧ ∀ q ∈ path_ancestors p.dropLast, q ∈ st3.fs.dirs)
    ∧ (∃ e, process_module { args1 with create_directory := false } om1 mif1 mti1 st1 m1 c1
        = .error e)
    ∧ (∃ st4, process_module { args2 with create_directory := true } om2 mif2 mti2 st2 m2 c2
        = .ok st4 ∧ ∀ q ∈ path_ancestors out.dropLast, q ∈ st4.fs.dirs)
    ∧ (∃ e, process_module { args2 with create_directory := false } om2 mif2 mti2 st2 m2 c2
        = .error e) := by
  refine ⟨?_, ?_, ?_, ?_⟩
  · have hpm : process_module { args1 with create_directory := true } om1 mif1 mti1 st1 m1 c1
        = .ok ⟨file_append
            ⟨path_ancestors p.dropLast ++ st1.fs.dirs, map_insert st1.fs.files p ""⟩ p
            (write_with_module "" c1 ((map_get mif1 i1).getD [])), st1.output_file⟩ := by
      simp only [process_module, h1, h2, parent_eq_dropLast p h3,
        file_create_mkdir st1.fs p h3, if_true]
    exact ⟨_, hpm, fun q hq => List.mem_append_left _ hq⟩
  · have hpm : process_module { args1 with create_directory := false } om1 mif1 mti1 st1 m1 c1
        = .error ("failed to create file " ++ String.intercalate "/" p) := by
      simp only [process_module, h1, h2, Bool.false_eq_true, if_false,
        file_create_fail st1.fs p h3 h4 h5]
    exact ⟨_, hpm⟩
  · have hpm : process_module { args2 with create_directory := true } om2 mif2 mti2 st2 m2 c2
        = .ok ⟨file_append
            ⟨path_ancestors out.dropLast ++ st2.fs.dirs, map_insert st2.fs.files out ""⟩ out
            (write_with_module "" c2 ((map_get mif2 i2).getD [])), some out⟩ := by
      simp only [process_module, h6, h7, h8, h9, parent_eq_dropLast out h10,
        file_create_mkdir st2.fs out h10, if_true]
    exact ⟨_, hpm, fun q hq => List.mem_append_left _ hq⟩
  · have hpm : process_module { args2 with create_directory := false } om2 mif2 mti2 st2 m2 c2
        = .error ("failed to create file " ++ String.intercalate "/" out) := by
      simp only [process_module, h6, h7, h8, h9, Bool.false_eq_true, if_false,
        file_create_fail st2.fs out h10 h11 h12]
    exact ⟨_, hpm⟩

/-- Argument record with a nested fallback path, used by the C8 witness. -/
def args_out_ey : Args := { args_base with output := some ["e", "y.rs"] }

/-- Witness for C8 at the routed destination `d/x.rs` and the fallback
destination `e/y.rs`, both with an absent parent directory. -/
theorem C8_witness :
    (∃ st3, process_module { args_base with create_directory := true }
        [("a.proto", ["d", "x.rs"])] [] [(["pa"], "a.proto")]
        ⟨fs_empty, none⟩ ["pa"] "T" = .ok st3
        ∧ ∀ q ∈ path_ancestors (["d", "x.rs"] : List String).dropLast, q ∈ st3.fs.dirs)
    ∧ (∃ e, process_module { args_base with create_directory := false }
        [("a.proto", ["d", "x.rs"])] [] [(["pa"], "a.proto")]
        ⟨fs_empty, none⟩ ["pa"] "T" = .error e)
    ∧ (∃ st4, process_module { args_out_ey with create_directory := true }
        [] [] [(["pb"], "b.proto")] ⟨fs_empty, none⟩ ["pb"] "U" = .ok st4
        ∧ ∀ q ∈ path_ancestors (["e", "y.rs"] : List String).dropLast, q ∈ st4.fs.dirs)
    ∧ (∃ e, process_module { args_out_ey with create_directory := false }
        [] [] [(["pb"], "b.proto")] ⟨fs_empty, none⟩ ["pb"] "U" = .error e) :=
  C8_directory_creation args_base [("a.proto", ["d", "x.rs"])] [] [(["pa"], "a.proto")]
    ⟨fs_empty, none⟩ ["pa"] "T" "a.proto" ["d", "x.rs"]
    args_out_ey [] [] [(["pb"], "b.proto")] ⟨fs_empty, none⟩ ["pb"] "U" "b.proto"
    ["e", "y.rs"]
    rfl rfl (by decide) (by decide) (by decide)
    rfl rfl rfl rfl (by decide) (by decide) (by decide)

theorem map_get_insert_some {κ α : Type} [DecidableEq κ]
    (m : List (κ × α)) (k q : κ) (v : α) (s : α) (h : map_get m q = some s) :
    ∃ s2, map_get (map_insert m k v) q = some s2 := by
  by_cases hq : q = k
  · subst hq
    exact ⟨v, map_get_insert_self m q v⟩
  · exact ⟨s, (map_get_insert_ne m k q v hq).symm ▸ h⟩

theorem file_create_files (fs : FS) (fs2 : FS) (p : List String)
    (h : file_create fs p = .ok fs2) : fs2.files = map_insert fs.files p "" := by
  unfold file_create at h
  split at h
  · cases h; rfl
  · cases h

theorem fs_if_files (b : Bool) (fs : FS) (p : List String) :
    (if b = true then
      match parent p with
      | some par => create_dir_all fs par
      | none => fs
    else fs).files = fs.files := by
  split
  · split <;> rfl
  · rfl

theorem process_module_files_mono (args : Args) (om mif : List (String × List String))
    (mti : List (ModuleId × String)) (st : RouterState) (m : ModuleId) (c : String)
    (st2 : RouterState) (q : List String) (s : String)
    (h : process_module args om mif mti st m c = .ok st2)
    (hq : map_get st.fs.files q = some s) :
    ∃ s2, map_get st2.fs.files q = some s2 := by
  simp only [process_module] at h
  repeat' split at h
  all_goals try exact Except.noConfusion h
  all_goals cases h
  all_goals first
  | (rename_i fs2 hfc
     have h1 := file_create_files _ fs2 _ hfc
     rw [fs_if_files] at h1
     simp only [file_append, h1]
     obtain ⟨s1, hs1⟩ := map_get_insert_some _ _ q _ s hq
     exact map_get_insert_some _ _ q _ s1 hs1)
  | (simp only [file_append]
     exact map_get_insert_some _ _ q _ s hq)

theorem process_all_files_mono (args : Args) (om mif : List (String × List String))
    (mti : List (ModuleId × String)) :
    ∀ (ms : List (ModuleId × String)) (st : RouterState) (q : List String) (s : String),
      map_get st.fs.files q = some s →
      ∃ s2, map_get (process_all args om mif mti st ms).1.fs.files q = some s2 := by
  intro ms
  induction ms with
  | nil => intro st q s h; exact ⟨s, h⟩
  | cons mc rest ih =>
    intro st q s h
    obtain ⟨m0, c0⟩ := mc
    cases hpm : process_module args om mif mti st m0 c0 with
    | error e =>
      simp only [process_all, hpm]
      exact ⟨s, h⟩
    | ok st2 =>
      simp only [process_all, hpm]
      obtain ⟨s1, h1⟩ := process_module_files_mono args om mif mti st m0 c0 st2 q s hpm h
      exact ih st2 q s1 h1

/-- The explicit destination a routed module is written to, phrased through
the same lookups the loop performs. -/
def route_dest (om : List (String × List String)) (mti : List (ModuleId × String))
    (mc : ModuleId × String) : List String :=
  (map_get om ((map_get mti mc.1).getD "")).getD []

theorem process_all_routed_lazy (args : Args) (om mif : List (String × List String))
    (mti : List (ModuleId × String))
    (hout : args.output = none) (hcd : args.create_directory = true) :
    ∀ (ms : List (ModuleId × String)) (st : RouterState),
      st.output_file = none →
      (∀ mc ∈ ms, ∃ i, map_get mti mc.1 = some i) →
      (∀ mc ∈ ms, has_explicit_route om mti mc = true → route_dest om mti mc ≠ []) →
      (process_all args om mif mti st ms).2
          = (ms.find? (fun mc => !(has_explicit_route om mti mc))).map
              (fun mc => "module " ++ module_name mc.1 ++ " has no output")
      ∧ ∀ mc ∈ ms.takeWhile (fun mc => has_explicit_route om mti mc),
          ∃ s, map_get (process_all args om mif mti st ms).1.fs.files
            (route_dest om mti mc) = some s := by
  intro ms
  induction ms with
  | nil =>
    intro st _ _ _
    exact ⟨rfl, fun mc hmc => absurd hmc (List.not_mem_nil mc)⟩
  | cons mc rest ih =>
    intro st hof hmti hne
    obtain ⟨i, hi⟩ := hmti mc (List.mem_cons_self mc rest)
    cases hroute : has_explicit_route om mti mc with
    | true =>
      have hsome : (map_get om i).isSome = true := by
        unfold has_explicit_route at hroute
        rw [hi] at hroute
        exact hroute
      obtain ⟨p, hp⟩ := Option.isSome_iff_exists.mp hsome
      have hdest : route_dest om mti mc = p := by
        unfold route_dest
        rw [hi, Option.getD_some, hp, Option.getD_some]
      have hpne : p ≠ [] := hdest ▸ hne mc (List.mem_cons_self mc rest) hroute
      obtain ⟨m0, c0⟩ := mc
      have hpm : process_module args om mif mti st m0 c0
          = .ok ⟨file_append
              ⟨path_ancestors p.dropLast ++ st.fs.dirs, map_insert st.fs.files p ""⟩ p
              (write_with_module "" c0 ((map_get mif i).getD [])), st.output_file⟩ := by
        simp only [process_module, hi, hp, hcd, if_true, parent_eq_dropLast p hpne,
          file_create_mkdir st.fs p hpne]
      have hih := ih ⟨file_append
          ⟨path_ancestors p.dropLast ++ st.fs.dirs, map_insert st.fs.files p ""⟩ p
          (write_with_module "" c0 ((map_get mif i).getD [])), st.output_file⟩
        (by simpa using hof)
        (fun mc2 h2 => hmti mc2 (List.mem_cons_of_mem _ h2))
        (fun mc2 h2 => hne mc2 (List.mem_cons_of_mem _ h2))
      constructor
      · simp only [process_all, hpm, List.find?_cons, hroute, Bool.not_true]
        exact hih.1
      · intro mc2 hmc2
        simp only [List.takeWhile_cons, hroute, if_true, List.mem_cons] at hmc2
        rcases hmc2 with heq2 | hmc2
        · rw [heq2]
          have hstart : map_get (file_append
              ⟨path_ancestors p.dropLast ++ st.fs.dirs, map_insert st.fs.files p ""⟩ p
              (write_with_module "" c0 ((map_get mif i).getD []))).files p
              = some ("" ++ write_with_module "" c0 ((map_get mif i).getD [])) := by
            simp [file_append, map_get_insert_self]
          simp only [process_all, hpm]
          rw [hdest]
          exact process_all_files_mono args om mif mti rest _ p _ hstart
        · simp only [process_all, hpm]
          exact hih.2 mc2 hmc2
    | false =>
      have hfalse : (map_get om i).isSome = false := by
        unfold has_explicit_route at hroute
        rw [hi] at hroute
        exact hroute
      have hnone : map_get om i = none := by
        cases hmg : map_get om i
        · rfl
        · rw [hmg] at hfalse; cases hfalse
      obtain ⟨m0, c0⟩ := mc
      have hpm : process_module args om mif mti st m0 c0
          = .error ("module " ++ module_name m0 ++ " has no output") := by
        simp only [process_module, hi, hnone, hof, hout]
      constructor
      · simp [process_all, hpm, List.find?_cons, hroute]
      · intro mc2 hmc2
        simp only [List.takeWhile_cons, hroute] at hmc2
        simp at hmc2

/-- C9: the missing-fallback failure is raised lazily by the routing loop:
the run's error is exactly the `module ... has no output` panic for the first
generated module without an output-map route (in particular the run succeeds
whenever every module is routed, even with no fallback configured), and every
explicitly routed module before that point has already had its file written
when the failure stops the run. -/
theorem C9_lazy_missing_fallback
    (gen : List (ModuleId × FileDescriptor) → List (ModuleId × String))
    (args : Args) (files : List FileDescriptor) (fs0 : FS)
    (mti : List (ModuleId × String)) (om mif : List (String × List String))
    (hpre : run_pre args files = .ok (mti, om, mif))
    (hout : args.output = none)
    (hcd : args.create_directory = true)
    (hmti : ∀ mc ∈ gen (make_request files), ∃ i, map_get mti mc.1 = some i)
    (hne : ∀ mc ∈ gen (make_request files),
        has_explicit_route om mti mc = true → route_dest om mti mc ≠ []) :
    (run gen args files fs0).2
        = ((gen (make_request files)).find?
            (fun mc => !(has_explicit_route om mti mc))).map
            (fun mc => "module " ++ module_name mc.1 ++ " has no output")
    ∧ ∀ mc ∈ (gen (make_request files)).takeWhile
          (fun mc => has_explicit_route om mti mc),
        ∃ s, map_get (run gen args files fs0).1.fs.files (route_dest om mti mc)
          = some s := by
  have hrun : run gen args files fs0
      = process_all args om mif mti ⟨fs0, none⟩ (gen (make_request files)) := by
    unfold run
    rw [hpre]
  rw [hrun]
  exact process_all_routed_lazy args om mif mti hout hcd (gen (make_request files))
    ⟨fs0, none⟩ rfl hmti hne

/-- Witness for C9: package `pa` routed to `a.rs`, package `pb` unrouted, no
fallback configured. -/
theorem C9_witness :
    (run gen_simple { args_base with output_map := ["a.proto=a.rs"], create_directory := true }
        [{ name := "a.proto", package := "pa" }, { name := "b.proto", package := "pb" }]
        fs_empty).2
      = ((gen_simple (make_request
            [{ name := "a.proto", package := "pa" },
             { name := "b.proto", package := "pb" }])).find?
          (fun mc => !(has_explicit_route [("a.proto", ["a.rs"])]
            [(["pb"], "b.proto"), (["pa"], "a.proto")] mc))).map
          (fun mc => "module " ++ module_name mc.1 ++ " has no output")
    ∧ ∀ mc ∈ (gen_simple (make_request
          [{ name := "a.proto", package := "pa" },
           { name := "b.proto", package := "pb" }])).takeWhile
          (fun mc => has_explicit_route [("a.proto", ["a.rs"])]
            [(["pb"], "b.proto"), (["pa"], "a.proto")] mc),
        ∃ s, map_get (run gen_simple { args_base with output_map := ["a.proto=a.rs"], create_directory := true }
            [{ name := "a.proto", package := "pa" },
             { name := "b.proto", package := "pb" }]
            fs_empty).1.fs.files
          (route_dest [("a.proto", ["a.rs"])]
            [(["pb"], "b.proto"), (["pa"], "a.proto")] mc) = some s :=
  C9_lazy_missing_fallback gen_simple
    { args_base with output_map := ["a.proto=a.rs"], create_directory := true }
    [{ name := "a.proto", package := "pa" }, { name := "b.proto", package := "pb" }]
    fs_empty [(["pb"], "b.proto"), (["pa"], "a.proto")] [("a.proto", ["a.rs"])] []
    rfl rfl rfl
    (by
      intro mc hmc
      rw [show gen_simple (make_request
          [{ name := "a.proto", package := "pa" },
           { name := "b.proto", package := "pb" }])
          = [(["pa"], "gen:pa"), (["pb"], "gen:pb")] from rfl] at hmc
      simp only [List.mem_cons, List.not_mem_nil, or_false] at hmc
      rcases hmc with rfl | rfl
      · exact ⟨"a.proto", rfl⟩
      · exact ⟨"b.proto", rfl⟩)
    (by
      intro mc hmc htrue
      rw [show gen_simple (make_request
          [{ name := "a.proto", package := "pa" },
           { name := "b.proto", package := "pb" }])
          = [(["pa"], "gen:pa"), (["pb"], "gen:pb")] from rfl] at hmc
      simp only [List.mem_cons, List.not_mem_nil, or_false] at hmc
      rcases hmc with rfl | rfl
      · exact by decide
      · exact absurd htrue (by decide))

theorem build_kv_append {α : Type} (mk : String → α) :
    ∀ (xs ys : List String) (acc : List (String × α)),
      build_kv mk acc (xs ++ ys)
        = match build_kv mk acc xs with
          | .error e => .error e
          | .ok m => build_kv mk m ys := by
  intro xs
  induction xs with
  | nil => intro ys acc; rfl
  | cons x xs ih =>
    intro ys acc
    simp only [List.cons_append, build_kv]
    cases hs : split_arg x with
    | error e => rfl
    | ok p =>
      obtain ⟨a, b⟩ := p
      exact ih ys (map_insert acc a (mk b))

theorem build_kv_ok_of_wf {α : Type} (mk : String → α) :
    ∀ (xs : List String) (acc : List (String × α)),
      (∀ x ∈ xs, ∃ p, split_arg x = .ok p) →
      ∃ m, build_kv mk acc xs = .ok m := by
  intro xs
  induction xs with
  | nil => intro acc _; exact ⟨acc, rfl⟩
  | cons y ys ih =>
    intro acc h
    obtain ⟨⟨a, b⟩, hab⟩ := h y (List.mem_cons_self y ys)
    simp only [build_kv, hab]
    exact ih (map_insert acc a (mk b)) (fun x hx => h x (List.mem_cons_of_mem _ hx))

theorem build_kv_untouched {α : Type} (mk : String → α) (k : String) :
    ∀ (xs : List String) (acc : List (String × α)),
      (∀ x ∈ xs, ∃ p, split_arg x = .ok p) →
      (∀ x ∈ xs, ∀ a b, split_arg x = .ok (a, b) → a ≠ k) →
      ∃ m, build_kv mk acc xs = .ok m ∧ map_get m k = map_get acc k := by
  intro xs
  induction xs with
  | nil => intro acc _ _; exact ⟨acc, rfl, rfl⟩
  | cons y ys ih =>
    intro acc hwf hnk
    obtain ⟨⟨a, b⟩, hab⟩ := hwf y (List.mem_cons_self y ys)
    have hak : a ≠ k := hnk y (List.mem_cons_self y ys) a b hab
    simp only [build_kv, hab]
    obtain ⟨m, hm, hk⟩ := ih (map_insert acc a (mk b))
      (fun x hx => hwf x (List.mem_cons_of_mem _ hx))
      (fun x hx => hnk x (List.mem_cons_of_mem _ hx))
    exact ⟨m, hm, by rw [hk, map_get_insert_ne _ _ _ _ (Ne.symm hak)]⟩

theorem build_kv_last {α : Type} (mk : String → α) (l1 l2 l3 : List String)
    (f1 f2 k v1 v2 : String)
    (h1 : split_arg f1 = .ok (k, v1)) (h2 : split_arg f2 = .ok (k, v2))
    (hwf : ∀ x ∈ l1 ++ f1 :: l2 ++ f2 :: l3, ∃ p, split_arg x = .ok p)
    (hlast : ∀ x ∈ l3, ∀ a b, split_arg x = .ok (a, b) → a ≠ k) :
    ∃ m, build_kv mk [] (l1 ++ f1 :: l2 ++ f2 :: l3) = .ok m
      ∧ map_get m k = some (mk v2) := by
  obtain ⟨mA, hA⟩ := build_kv_ok_of_wf mk l1 []
    (fun x hx => hwf x (List.mem_append_left _ (List.mem_append_left _ hx)))
  rw [build_kv_append, build_kv_append]
  simp only [hA]
  simp only [build_kv, h1]
  obtain ⟨mB, hB⟩ := build_kv_ok_of_wf mk l2 (map_insert mA k (mk v1))
    (fun x hx => hwf x
      (List.mem_append_left _ (List.mem_append_right _ (List.mem_cons_of_mem _ hx))))
  simp only [hB]
  simp only [build_kv, h2]
  obtain ⟨mC, hC, hCk⟩ := build_kv_untouched mk k l3 (map_insert mB k (mk v2))
    (fun x hx => hwf x (List.mem_append_right _ (List.mem_cons_of_mem _ hx)))
    hlast
  exact ⟨mC, hC, by rw [hCk, map_get_insert_self]⟩

/-- C10: when output-map flags (or module-in-file flags) repeat the same
input-file selector, the built mapping holds the value of the last occurrence
in flag order: construction succeeds with no duplicate-key error, and the
lookup yields the final value, the earlier ones being silently shadowed. -/
theorem C10_last_flag_wins (l1 l2 l3 : List String) (f1 f2 k v1 v2 : String)
    (h1 : split_arg f1 = .ok (k, v1)) (h2 : split_arg f2 = .ok (k, v2))
    (hwf : ∀ x ∈ l1 ++ f1 :: l2 ++ f2 :: l3, ∃ p, split_arg x = .ok p)
    (hlast : ∀ x ∈ l3, ∀ a b, split_arg x = .ok (a, b) → a ≠ k) :
    (∃ m, build_output_map (l1 ++ f1 :: l2 ++ f2 :: l3) = .ok m
        ∧ map_get m k = some (pathbuf_from v2))
    ∧ (∃ m2, build_module_in_file_map (l1 ++ f1 :: l2 ++ f2 :: l3) = .ok m2
        ∧ map_get m2 k = some ((split_colons v2.toList).map (fun l => String.mk l))) := by
  constructor
  · exact build_kv_last (fun b => pathbuf_from b) l1 l2 l3 f1 f2 k v1 v2 h1 h2 hwf hlast
  · exact build_kv_last (fun b => (split_colons b.toList).map (fun l => String.mk l))
      l1 l2 l3 f1 f2 k v1 v2 h1 h2 hwf hlast

/-- Witness for C10 at the repeated selector `a.proto`. -/
theorem C10_witness :
    (∃ m, build_output_map ([] ++ "a.proto=x.rs" :: [] ++ "a.proto=y.rs" :: ["b.proto=z.rs"])
        = .ok m ∧ map_get m "a.proto" = some (pathbuf_from "y.rs"))
    ∧ (∃ m2, build_module_in_file_map
          ([] ++ "a.proto=x.rs" :: [] ++ "a.proto=y.rs" :: ["b.proto=z.rs"]) = .ok m2
        ∧ map_get m2 "a.proto"
            = some ((split_colons ("y.rs" : String).toList).map (fun l => String.mk l))) :=
  C10_last_flag_wins [] [] ["b.proto=z.rs"] "a.proto=x.rs" "a.proto=y.rs"
    "a.proto" "x.rs" "y.rs" rfl rfl
    (by
      intro x hx
      have hx2 : x ∈ ["a.proto=x.rs", "a.proto=y.rs", "b.proto=z.rs"] := by simpa using hx
      simp only [List.mem_cons, List.not_mem_nil, or_false] at hx2
      rcases hx2 with rfl | rfl | rfl
      · exact ⟨("a.proto", "x.rs"), rfl⟩
      · exact ⟨("a.proto", "y.rs"), rfl⟩
      · exact ⟨("b.proto", "z.rs"), rfl⟩)
    (by
      intro x hx a b hab
      simp only [List.mem_cons, List.not_mem_nil, or_false] at hx
      subst hx
      rw [show split_arg "b.proto=z.rs" = .ok ("b.proto", "z.rs") from rfl] at hab
      cases hab
      decide)
